import Mathlib

/-!
Shallow embedding of `monitor_rdv_conciliateur_email.py`, an availability
monitor that repeatedly renders a booking page, classifies the text by
searching for a fixed negative phrase, fingerprints the page content, and
emails at most one alert per distinct content, persisting the fingerprint
of the last notified content in a state file.

Modelling conventions:
* Python `str` values are modelled as `List Char` (or Lean `String` for
  opaque stored values such as fingerprints and file contents).
* Python's salted string hash is modelled by `pyHashStr`, which takes the
  per-process salt (hash randomization, `PYTHONHASHSEED`) as an explicit
  parameter; within one process the salt is fixed.
* External effects (the renderer, the SMTP session, the state-file write)
  are modelled by explicit outcome values supplied to each poll cycle.
* Exceptions are modelled with `Except`; the `try ... except Exception`
  of the main loop is the total function `cycle` wrapping `cycle_body`.
-/

/-- The set of characters matched by Python's `\s` (for `str` patterns) and
stripped by `str.strip`: ASCII whitespace and the Unicode space/separator
characters (`str.isspace`). -/
def isPyWhitespace (c : Char) : Bool :=
  decide ((9 ≤ c.toNat ∧ c.toNat ≤ 13) ∨ c.toNat = 32 ∨
    (28 ≤ c.toNat ∧ c.toNat ≤ 31) ∨ c.toNat = 0x85 ∨ c.toNat = 0xA0 ∨
    c.toNat = 0x1680 ∨ (0x2000 ≤ c.toNat ∧ c.toNat ≤ 0x200A) ∨
    c.toNat = 0x2028 ∨ c.toNat = 0x2029 ∨ c.toNat = 0x202F ∨
    c.toNat = 0x205F ∨ c.toNat = 0x3000)

/-- The four single-character replacements at the top of `normalize_text`:
no-break space (U+00A0) and narrow no-break space (U+202F) become a plain
space, and the typographic single quotes U+2019 / U+2018 become the ASCII
apostrophe (code point 39). -/
def replaceSpecial (c : Char) : Char :=
  if c.toNat = 0xA0 ∨ c.toNat = 0x202F then ' '
  else if c.toNat = 0x2019 ∨ c.toNat = 0x2018 then Char.ofNat 39
  else c

/-- One pass of `re.sub(r"\s+", " ", s)`: every maximal run of whitespace
characters is replaced by a single space.  The boolean flag records whether
the previous character belonged to a whitespace run. -/
def collapseAux : List Char → Bool → List Char
  | [], _ => []
  | c :: cs, inRun =>
    if isPyWhitespace c then
      if inRun then collapseAux cs true
      else ' ' :: collapseAux cs true
    else c :: collapseAux cs false

/-- Whitespace collapsing `re.sub(r"\s+", " ", s)` on a character list. -/
def collapseWs (s : List Char) : List Char :=
  collapseAux s false

/-- Python `str.strip()`: remove leading and trailing whitespace. -/
def stripWs (s : List Char) : List Char :=
  List.rdropWhile isPyWhitespace (List.dropWhile isPyWhitespace s)

/-- Function `normalize_text` from the source: replace the special characters,
collapse whitespace runs to single spaces, strip, and lowercase
(Python `str.lower`, modelled on the basic latin range by
`Char.toLower`). -/
def normalize_text (s : List Char) : List Char :=
  List.map Char.toLower (stripWs (collapseWs (List.map replaceSpecial s)))

/-- First literal of the official unavailability message. -/
def negPartOne : String :=
  " Aucun rendez-vous n'est actuellement disponible."

/-- Second literal of the official unavailability message. -/
def negPartTwo : String :=
  " De nouveaux rendez-vous seront proposés prochainement sur cette page."

/-- Constant `NEGATIVE_PHRASE_FULL`: the official unavailability message, the
concatenation of the two adjacent literals in the source. -/
def NEGATIVE_PHRASE_FULL : List Char :=
  String.data (negPartOne ++ negPartTwo)

/-- Classifier `parse_availability` from the source.  The argument is the document
text extracted from the rendered page (`BeautifulSoup(...).get_text` is an
external HTML-parsing collaborator; the classifier itself only sees the
extracted text, which is what this model takes as input).  Python's
substring test `in` is contiguous-sublist containment, `List.IsInfix`.
Returns the `(has_slots, detail)` pair. -/
def parse_availability (raw_text : List Char) : Bool × String :=
  if normalize_text NEGATIVE_PHRASE_FULL <:+: normalize_text raw_text then
    (false, "Message négatif exact détecté")
  else
    (true, "Phrase négative absente")

/-- Model of CPython's string hash as used in `hash(html[:50000])`.
CPython salts string hashing with an unpredictable per-process value
(hash randomization, `PYTHONHASHSEED`): within one process the hash is a
fixed function of the string, but two processes generally use different
salts.  The exact siphash mixing is opaque; it is modelled here as a
seeded polynomial over the code points reduced modulo `2 ^ 64`.  All the
claims depend only on it being a deterministic function of the pair
(salt, string) that genuinely varies with the salt; as in CPython, the
empty string hashes to `0` regardless of the salt. -/
def pyHashStr (salt : Nat) (s : List Char) : Int :=
  if s = [] then 0
  else Int.ofNat (s.foldl (fun a c => (a * 1000003 + c.toNat + 1) % 2 ^ 64) (salt % 2 ^ 64))

/-- Fingerprint computation `signature = str(hash(html[:50000]))` from the main loop: the decimal
rendering of the salted hash of the first 50000 characters of the raw
page markup. -/
def signatureOf (salt : Nat) (html : List Char) : String :=
  toString (pyHashStr salt (html.take 50000))

/-- Outcome of the underlying `Path.write_text` call, which opens the file
for truncating write and writes the whole value: it may succeed, fail
before anything is written (e.g. the open itself fails), or be interrupted
after writing only the first `k` characters of the new value. -/
inductive WriteOutcome where
  | ok : WriteOutcome
  | openFail : WriteOutcome
  | interrupted : Nat → WriteOutcome
deriving DecidableEq

/-- Model of `STATE_FILE.write_text(s)`: returns the file content afterwards and
whether the call raised.  A plain truncating write, not write-then-rename:
an interrupted write leaves a prefix of the new value behind. -/
def write_text (out : WriteOutcome) (s : String) (file : Option String) :
    Option String × Bool :=
  match out with
  | WriteOutcome.ok => (some s, false)
  | WriteOutcome.openFail => (file, true)
  | WriteOutcome.interrupted k => (some (String.mk (s.data.take k)), true)

/-- Function `save_state` from the source: `try: STATE_FILE.write_text(s) except
Exception: pass`.  Returns the file content afterwards and the log lines
emitted; the exception flag of `write_text` is dropped (the function never
raises) and nothing is ever logged. -/
def save_state (out : WriteOutcome) (s : String) (file : Option String) :
    Option String × List String :=
  match write_text out s file with
  | (f, true) => (f, [])
  | (f, false) => (f, [])

/-- Python `str.strip()` on a stored `String` value. -/
def pyStripStr (s : String) : String :=
  String.mk (stripWs s.data)

/-- Function `load_state` from the source: empty string when the file is absent,
the stripped content when the read succeeds, and empty string when the
read raises. -/
def load_state (file : Option String) (readOk : Bool) : String :=
  match file with
  | none => ""
  | some content => if readOk then pyStripStr content else ""

/-- The exception kinds that the body of a poll cycle can raise: the
renderer failing (timeout, network error, crash) and the SMTP session
failing during notification delivery. -/
inductive PyErr where
  | fetchError : PyErr
  | deliveryError : PyErr
deriving DecidableEq

/-- Function `send_email` from the source.  `configured` states that the SMTP
host, user, password and recipient are all set; when it is false the
function logs and returns without sending.  Otherwise the SMTP session is
attempted: on success the alert is sent and logged, on failure the
exception propagates to the caller.  Returns (sent?, log lines). -/
def send_email (configured : Bool) (smtpOk : Bool) :
    Except PyErr (Bool × List String) :=
  if configured = false then
    Except.ok (false, [ "Config email incomplète. Aucune alerte envoyée."])
  else if smtpOk then
    Except.ok (true, [ "Email d’alerte envoyé."])
  else
    Except.error PyErr.deliveryError

/-- The mutable state carried across poll cycles: the in-memory
`last_signature` variable and the persisted state file content. -/
structure MonState where
  last_signature : String
  state_file : Option String
deriving DecidableEq

/-- The external outcomes feeding one poll cycle: the renderer result
(`none` when the fetch raises), the per-process hash salt, whether the
mail configuration is complete, whether the SMTP session succeeds when
attempted, and the outcome of the state-file write when attempted. -/
structure CycleEnv where
  fetch : Option (List Char)
  salt : Nat
  configured : Bool
  smtpOk : Bool
  writeOut : WriteOutcome
deriving DecidableEq

/-- The observable outcome of one poll cycle: whether an alert email was
actually delivered, and the log lines produced (the varying suffix of the
error log line `"Erreur: ..."` is elided). -/
structure CycleOut where
  notified : Bool
  logs : List String
deriving DecidableEq

/-- The body of one iteration of the `while True` loop, inside the `try`:
fetch, classify, fingerprint, compare, and on new availability notify and
persist.  Either returns the new state plus outcome, or raises. -/
def cycle_body (env : CycleEnv) (st : MonState) :
    Except PyErr (MonState × CycleOut) :=
  match env.fetch with
  | none => Except.error PyErr.fetchError
  | some html =>
    if (parse_availability html).1 then
      if signatureOf env.salt html ≠ st.last_signature then
        match send_email env.configured env.smtpOk with
        | Except.error e => Except.error e
        | Except.ok r =>
          Except.ok
            ({ last_signature := signatureOf env.salt html,
               state_file :=
                 (save_state env.writeOut (signatureOf env.salt html) st.state_file).1 },
             { notified := r.1,
               logs := r.2 ++
                 (save_state env.writeOut (signatureOf env.salt html) st.state_file).2 })
      else
        Except.ok (st,
          { notified := false,
            logs := [ "Disponibilités déjà signalées. Pas de nouvel email."] })
    else
      Except.ok (st, { notified := false, logs := [ "Aucune disponibilité détectée."] })

/-- One full iteration of the poll loop: the `try ... except Exception`
around the body.  Any exception raised by the body is caught, logged, and
the loop proceeds to the sleep with the state unchanged. -/
def cycle (env : CycleEnv) (st : MonState) : MonState × CycleOut :=
  match cycle_body env st with
  | Except.ok r => r
  | Except.error _ => (st, { notified := false, logs := [ "Erreur"] })

/-- Run the poll loop for one cycle per environment in the list,
threading the state and collecting the per-cycle outcomes. -/
def runCycles (envs : List CycleEnv) (st : MonState) :
    MonState × List CycleOut :=
  match envs with
  | [] => (st, [])
  | e :: rest =>
    let r := cycle e st
    let rr := runCycles rest r.1
    (rr.1, r.2 :: rr.2)

/-- Number of cycles in which an alert email was actually delivered. -/
def notifCount (outs : List CycleOut) : Nat :=
  List.countP (fun o => o.notified) outs

/-- Every whitespace character occurring in the list is a plain space. -/
def WsSpace (l : List Char) : Prop :=
  ∀ c ∈ l, isPyWhitespace c = true → c = ' '

/-- No two adjacent characters of the list are both whitespace. -/
def NoAdjWs (l : List Char) : Prop :=
  List.Chain' (fun a b => ¬(isPyWhitespace a = true ∧ isPyWhitespace b = true)) l

/-- The first character, when present, is not whitespace. -/
def HeadNotWs (l : List Char) : Prop :=
  ∀ c, l.head? = some c → isPyWhitespace c = false

/-- The last character, when present, is not whitespace. -/
def LastNotWs (l : List Char) : Prop :=
  ∀ c, l.getLast? = some c → isPyWhitespace c = false

/-- The character is none of the four characters rewritten by
`replaceSpecial`. -/
def NonSpecial (c : Char) : Prop :=
  c.toNat ≠ 0xA0 ∧ c.toNat ≠ 0x202F ∧ c.toNat ≠ 0x2019 ∧ c.toNat ≠ 0x2018

/-- Concrete example document used by witnesses: a page text that does not
contain the negative phrase, hence classifies as available. -/
def exDoc : List Char :=
  String.data "x"

/-- Example cycle environment: fetch succeeds with `exDoc`, mail fully
configured, SMTP works, state write works. -/
def exEnvOk : CycleEnv :=
  { fetch := some exDoc, salt := 0, configured := true, smtpOk := true,
    writeOut := WriteOutcome.ok }

/-- Example cycle environment: mail configuration incomplete. -/
def exEnvUnconf : CycleEnv :=
  { fetch := some exDoc, salt := 0, configured := false, smtpOk := true,
    writeOut := WriteOutcome.ok }

/-- Example cycle environment: SMTP session raises. -/
def exEnvFail : CycleEnv :=
  { fetch := some exDoc, salt := 0, configured := true, smtpOk := false,
    writeOut := WriteOutcome.ok }

/-- Example cycle environment: the renderer raises. -/
def exEnvErr : CycleEnv :=
  { fetch := none, salt := 0, configured := true, smtpOk := true,
    writeOut := WriteOutcome.ok }

/-- Example cycle environment: the fetched document is exactly the negative
phrase, hence classifies as unavailable. -/
def exEnvNeg : CycleEnv :=
  { fetch := some NEGATIVE_PHRASE_FULL, salt := 0, configured := true,
    smtpOk := true, writeOut := WriteOutcome.ok }

/-- Example initial monitor state: nothing signalled yet. -/
def exSt0 : MonState :=
  { last_signature := "", state_file := none }

/-- Example monitor state in which `exDoc` has already been signalled. -/
def exStSeen : MonState :=
  { last_signature := signatureOf 0 exDoc, state_file := some (signatureOf 0 exDoc) }

/-- Second concrete example document, with content different from `exDoc`
(and a different fingerprint under salt 0). -/
def exDocY : List Char :=
  String.data "y"

/-- Example cycle environment: fetch succeeds with `exDocY`, mail fully
configured, SMTP works, state write works. -/
def exEnvOkY : CycleEnv :=
  { fetch := some exDocY, salt := 0, configured := true, smtpOk := true,
    writeOut := WriteOutcome.ok }

theorem char_toNat_ofNat (n : Nat) (h : n < 0xd800) : (Char.ofNat n).toNat = n := by
  have hv : n.isValidChar := Or.inl h
  rw [Char.ofNat, dif_pos hv]
  rfl

theorem isPyWhitespace_iff (c : Char) : isPyWhitespace c = true ↔
    ((9 ≤ c.toNat ∧ c.toNat ≤ 13) ∨ c.toNat = 32 ∨
    (28 ≤ c.toNat ∧ c.toNat ≤ 31) ∨ c.toNat = 0x85 ∨ c.toNat = 0xA0 ∨
    c.toNat = 0x1680 ∨ (0x2000 ≤ c.toNat ∧ c.toNat ≤ 0x200A) ∨
    c.toNat = 0x2028 ∨ c.toNat = 0x2029 ∨ c.toNat = 0x202F ∨
    c.toNat = 0x205F ∨ c.toNat = 0x3000) := by
  simp [isPyWhitespace]

theorem toLower_eq_self (c : Char) (h : ¬(65 ≤ c.toNat ∧ c.toNat ≤ 90)) :
    Char.toLower c = c := by
  unfold Char.toLower
  rw [if_neg h]

theorem toLower_toNat_of_upper (c : Char) (h : 65 ≤ c.toNat ∧ c.toNat ≤ 90) :
    (Char.toLower c).toNat = c.toNat + 32 := by
  unfold Char.toLower
  rw [if_pos h]
  exact char_toNat_ofNat _ (by omega)

theorem toLower_idem (c : Char) :
    Char.toLower (Char.toLower c) = Char.toLower c := by
  by_cases h : 65 ≤ c.toNat ∧ c.toNat ≤ 90
  · have h2 := toLower_toNat_of_upper c h
    exact toLower_eq_self _ (by omega)
  · rw [toLower_eq_self c h, toLower_eq_self c h]

theorem isPyWhitespace_toLower (c : Char) :
    isPyWhitespace (Char.toLower c) = isPyWhitespace c := by
  by_cases h : 65 ≤ c.toNat ∧ c.toNat ≤ 90
  · have h2 := toLower_toNat_of_upper c h
    have e1 : isPyWhitespace (Char.toLower c) = false := by
      rw [← Bool.not_eq_true, isPyWhitespace_iff]
      omega
    have e2 : isPyWhitespace c = false := by
      rw [← Bool.not_eq_true, isPyWhitespace_iff]
      omega
    rw [e1, e2]
  · rw [toLower_eq_self c h]

theorem toLower_eq_self_of_ws (c : Char) (h : isPyWhitespace c = true) :
    Char.toLower c = c := by
  rw [isPyWhitespace_iff] at h
  exact toLower_eq_self c (by omega)

theorem nonSpecial_replaceSpecial (c : Char) : NonSpecial (replaceSpecial c) := by
  unfold replaceSpecial
  by_cases h1 : c.toNat = 0xA0 ∨ c.toNat = 0x202F
  · rw [if_pos h1]
    refine ⟨?_, ?_, ?_, ?_⟩ <;> decide
  · rw [if_neg h1]
    by_cases h2 : c.toNat = 0x2019 ∨ c.toNat = 0x2018
    · rw [if_pos h2]
      refine ⟨?_, ?_, ?_, ?_⟩ <;> rw [char_toNat_ofNat 39 (by omega)] <;> omega
    · rw [if_neg h2]
      unfold NonSpecial
      omega

theorem replaceSpecial_eq_self (c : Char) (h : NonSpecial c) :
    replaceSpecial c = c := by
  obtain ⟨h1, h2, h3, h4⟩ := h
  unfold replaceSpecial
  rw [if_neg (by omega), if_neg (by omega)]

theorem nonSpecial_toLower (c : Char) (h : NonSpecial c) :
    NonSpecial (Char.toLower c) := by
  by_cases hu : 65 ≤ c.toNat ∧ c.toNat ≤ 90
  · have h2 := toLower_toNat_of_upper c hu
    unfold NonSpecial
    omega
  · rw [toLower_eq_self c hu]
    exact h

theorem wsSpace_collapseAux (s : List Char) : ∀ b, WsSpace (collapseAux s b) := by
  induction s with
  | nil => intro b c hc; simp [collapseAux] at hc
  | cons c cs ih =>
    intro b
    by_cases hw : isPyWhitespace c
    · cases b with
      | true => simpa [collapseAux, hw] using ih true
      | false =>
        intro d hd hdw
        simp only [collapseAux, hw, if_pos, if_true, Bool.false_eq_true, if_false,
          List.mem_cons] at hd
        rcases hd with rfl | hd
        · rfl
        · exact ih true d hd hdw
    · intro d hd hdw
      simp only [collapseAux, hw, if_false, Bool.false_eq_true, List.mem_cons] at hd
      rcases hd with rfl | hd
      · exact absurd hdw hw
      · exact ih false d hd hdw

theorem noAdjWs_collapseAux (s : List Char) : ∀ b,
    NoAdjWs (collapseAux s b) ∧ (b = true → HeadNotWs (collapseAux s b)) := by
  induction s with
  | nil =>
    intro b
    exact ⟨List.chain'_nil, fun _ c hc => by simp [collapseAux] at hc⟩
  | cons c cs ih =>
    intro b
    by_cases hw : isPyWhitespace c
    · cases b with
      | true => simpa [collapseAux, hw] using ih true
      | false =>
        simp only [collapseAux, hw, if_true, Bool.false_eq_true, if_false]
        refine ⟨?_, fun h => absurd h (by simp)⟩
        rw [NoAdjWs, List.chain'_cons']
        refine ⟨?_, (ih true).1⟩
        intro y hy hcon
        have hyw : isPyWhitespace y = false := (ih true).2 rfl y hy
        rw [hyw] at hcon
        exact absurd hcon.2 (by simp)
    · simp only [collapseAux, hw, Bool.false_eq_true, if_false]
      have hwf : isPyWhitespace c = false := Bool.eq_false_iff.mpr hw
      constructor
      · rw [NoAdjWs, List.chain'_cons']
        refine ⟨?_, (ih false).1⟩
        intro y _ hcon
        rw [hwf] at hcon
        exact absurd hcon.1 (by simp)
      · intro _ d hd
        simp only [List.head?_cons, Option.some.injEq] at hd
        rw [← hd]
        exact hwf

theorem collapseAux_fix (s : List Char) : ∀ b, WsSpace s → NoAdjWs s →
    (b = true → HeadNotWs s) → collapseAux s b = s := by
  induction s with
  | nil => intro b _ _ _; rfl
  | cons c cs ih =>
    intro b hws hadj hhead
    have htail_ws : WsSpace cs := fun d hd => hws d (List.mem_cons_of_mem c hd)
    have htail_adj : NoAdjWs cs := List.Chain'.tail hadj
    by_cases hw : isPyWhitespace c
    · have hb : b = false := by
        cases b with
        | false => rfl
        | true =>
          have := hhead rfl c (by simp)
          rw [hw] at this
          exact absurd this (by simp)
      subst hb
      have hc : c = ' ' := hws c (by simp) hw
      subst hc
      simp only [collapseAux, hw, if_true, Bool.false_eq_true, if_false, List.cons.injEq,
        true_and]
      apply ih true htail_ws htail_adj
      intro _ d hd
      have h1 := (List.chain'_cons'.mp hadj).1 d hd
      rw [hw] at h1
      by_contra hdt
      rw [Bool.not_eq_false] at hdt
      rw [hdt] at h1
      exact h1 ⟨rfl, rfl⟩
    · simp only [collapseAux, hw, Bool.false_eq_true, if_false, List.cons.injEq, true_and]
      exact ih false htail_ws htail_adj (fun h => absurd h (by simp))

theorem mem_collapseAux (s : List Char) : ∀ b c, c ∈ collapseAux s b →
    c = ' ' ∨ c ∈ s := by
  induction s with
  | nil => intro b c hc; simp [collapseAux] at hc
  | cons d ds ih =>
    intro b c hc
    by_cases hw : isPyWhitespace d
    · cases b with
      | true =>
        simp only [collapseAux, hw, if_true] at hc
        rcases ih true c hc with h | h
        · exact Or.inl h
        · exact Or.inr (List.mem_cons_of_mem d h)
      | false =>
        simp only [collapseAux, hw, if_true, Bool.false_eq_true, if_false,
          List.mem_cons] at hc
        rcases hc with rfl | hc
        · exact Or.inl rfl
        · rcases ih true c hc with h | h
          · exact Or.inl h
          · exact Or.inr (List.mem_cons_of_mem d h)
    · simp only [collapseAux, hw, Bool.false_eq_true, if_false, List.mem_cons] at hc
      rcases hc with rfl | hc
      · exact Or.inr (by simp)
      · rcases ih false c hc with h | h
        · exact Or.inl h
        · exact Or.inr (List.mem_cons_of_mem d h)

theorem dropWhile_head_not {α : Type} (p : α → Bool) :
    ∀ (l : List α) (a : α) (t : List α), List.dropWhile p l = a :: t → p a = false := by
  intro l
  induction l with
  | nil => intro a t h; simp [List.dropWhile] at h
  | cons c cs ih =>
    intro a t h
    rw [List.dropWhile_cons] at h
    by_cases hp : p c
    · rw [if_pos (by simpa using hp)] at h
      exact ih a t h
    · rw [if_neg (by simpa using hp)] at h
      cases h
      exact Bool.eq_false_iff.mpr hp

theorem headNotWs_stripWs (v : List Char) : HeadNotWs (stripWs v) := by
  intro c hc
  unfold stripWs at hc
  cases hrd : List.rdropWhile isPyWhitespace (List.dropWhile isPyWhitespace v) with
  | nil => rw [hrd] at hc; simp at hc
  | cons a t =>
    rw [hrd] at hc
    simp only [List.head?_cons, Option.some.injEq] at hc
    obtain ⟨r, hr⟩ := List.rdropWhile_prefix isPyWhitespace
      (List.dropWhile isPyWhitespace v)
    rw [hrd] at hr
    refine dropWhile_head_not isPyWhitespace v c (t ++ r) ?_
    rw [← hr, hc]
    rfl

theorem lastNotWs_stripWs (v : List Char) : LastNotWs (stripWs v) := by
  intro c hc
  unfold stripWs at hc
  have hne : List.rdropWhile isPyWhitespace (List.dropWhile isPyWhitespace v) ≠ [] := by
    intro h
    rw [h] at hc
    simp at hc
  have hlast := List.rdropWhile_last_not (p := isPyWhitespace)
    (l := List.dropWhile isPyWhitespace v) hne
  rw [List.getLast?_eq_getLast _ hne, Option.some.injEq] at hc
  subst hc
  exact Bool.eq_false_iff.mpr hlast

theorem wsSpace_stripWs (v : List Char) (h : WsSpace v) : WsSpace (stripWs v) := by
  intro c hc hw
  refine h c ?_ hw
  exact (List.dropWhile_suffix isPyWhitespace).subset
    (( List.rdropWhile_prefix isPyWhitespace
      (List.dropWhile isPyWhitespace v)).subset hc)

theorem noAdjWs_stripWs (v : List Char) (h : NoAdjWs v) : NoAdjWs (stripWs v) :=
  List.Chain'.prefix (List.Chain'.suffix h (List.dropWhile_suffix isPyWhitespace))
    ( List.rdropWhile_prefix isPyWhitespace (List.dropWhile isPyWhitespace v))

theorem stripWs_eq_self (l : List Char) (hh : HeadNotWs l) (hl : LastNotWs l) :
    stripWs l = l := by
  unfold stripWs
  have h1 : List.dropWhile isPyWhitespace l = l := by
    cases l with
    | nil => rfl
    | cons c cs =>
      rw [List.dropWhile_cons, if_neg]
      simp [hh c rfl]
  rw [h1, List.rdropWhile_eq_self_iff]
  intro hne hx
  have := hl (l.getLast hne) (List.getLast?_eq_getLast l hne)
  rw [this] at hx
  exact absurd hx (by simp)

theorem nonSpecial_space : NonSpecial ' ' :=
  ⟨by decide, by decide, by decide, by decide⟩

theorem collapseWs_fix (l : List Char) (h1 : WsSpace l) (h2 : NoAdjWs l) :
    collapseWs l = l :=
  collapseAux_fix l false h1 h2 (fun h => Bool.noConfusion h)

theorem wsSpace_map_toLower (l : List Char) (h : WsSpace l) :
    WsSpace (l.map Char.toLower) := by
  intro c hc hw
  rw [List.mem_map] at hc
  obtain ⟨d, hd, rfl⟩ := hc
  rw [isPyWhitespace_toLower] at hw
  rw [h d hd hw]
  decide

theorem noAdjWs_map_toLower (l : List Char) (h : NoAdjWs l) :
    NoAdjWs (l.map Char.toLower) := by
  unfold NoAdjWs at h ⊢
  refine List.chain'_map_of_chain' Char.toLower ?_ h
  intro a b hab
  rw [isPyWhitespace_toLower, isPyWhitespace_toLower]
  exact hab

theorem headNotWs_map_toLower (l : List Char) (h : HeadNotWs l) :
    HeadNotWs (l.map Char.toLower) := by
  intro c hc
  rw [List.head?_map, Option.map_eq_some'] at hc
  obtain ⟨d, hd, rfl⟩ := hc
  rw [isPyWhitespace_toLower]
  exact h d hd

theorem lastNotWs_map_toLower (l : List Char) (h : LastNotWs l) :
    LastNotWs (l.map Char.toLower) := by
  intro c hc
  rw [List.getLast?_map, Option.map_eq_some'] at hc
  obtain ⟨d, hd, rfl⟩ := hc
  rw [isPyWhitespace_toLower]
  exact h d hd

theorem map_replaceSpecial_normalize (s : List Char) :
    List.map replaceSpecial (normalize_text s) = normalize_text s := by
  have hns : ∀ c ∈ normalize_text s, NonSpecial c := by
    intro c hc
    unfold normalize_text at hc
    rw [List.mem_map] at hc
    obtain ⟨d, hd, rfl⟩ := hc
    apply nonSpecial_toLower
    have hd2 : d ∈ collapseWs (List.map replaceSpecial s) :=
      (List.dropWhile_suffix isPyWhitespace).subset
        (( List.rdropWhile_prefix isPyWhitespace
          (List.dropWhile isPyWhitespace
            (collapseWs (List.map replaceSpecial s)))).subset hd)
    rcases mem_collapseAux _ false d hd2 with rfl | hd3
    · exact nonSpecial_space
    · rw [List.mem_map] at hd3
      obtain ⟨e, _, rfl⟩ := hd3
      exact nonSpecial_replaceSpecial e
  have hgen : ∀ (l : List Char), (∀ c ∈ l, NonSpecial c) →
      List.map replaceSpecial l = l := by
    intro l
    induction l with
    | nil => intro _; rfl
    | cons a t ih =>
      intro h
      simp only [List.map_cons]
      rw [replaceSpecial_eq_self a (h a (by simp)),
        ih (fun c hc => h c (List.mem_cons_of_mem a hc))]
  exact hgen _ hns

/-- C7: text normalization is idempotent: for every string `x`,
`normalize_text (normalize_text x) = normalize_text x`. -/
theorem claim_C7 (x : List Char) :
    normalize_text (normalize_text x) = normalize_text x := by
  have hWs : WsSpace (normalize_text x) :=
    wsSpace_map_toLower _ (wsSpace_stripWs _ (wsSpace_collapseAux _ false))
  have hAdj : NoAdjWs (normalize_text x) :=
    noAdjWs_map_toLower _ (noAdjWs_stripWs _ (noAdjWs_collapseAux _ false).1)
  have hHead : HeadNotWs (normalize_text x) :=
    headNotWs_map_toLower _ (headNotWs_stripWs _)
  have hLast : LastNotWs (normalize_text x) :=
    lastNotWs_map_toLower _ (lastNotWs_stripWs _)
  calc normalize_text (normalize_text x)
      = List.map Char.toLower (stripWs (collapseWs
          (List.map replaceSpecial (normalize_text x)))) := rfl
    _ = List.map Char.toLower (stripWs (collapseWs (normalize_text x))) := by
        rw [map_replaceSpecial_normalize]
    _ = List.map Char.toLower (stripWs (normalize_text x)) := by
        rw [collapseWs_fix _ hWs hAdj]
    _ = List.map Char.toLower (normalize_text x) := by
        rw [stripWs_eq_self _ hHead hLast]
    _ = normalize_text x := by
        show List.map Char.toLower (List.map Char.toLower
          (stripWs (collapseWs (List.map replaceSpecial x)))) =
          List.map Char.toLower (stripWs (collapseWs (List.map replaceSpecial x)))
        rw [List.map_map]
        exact List.map_congr_left (fun a _ => toLower_idem a)

theorem save_state_logs (out : WriteOutcome) (s : String) (file : Option String) :
    (save_state out s file).2 = [] := by
  cases out <;> rfl

theorem cycle_of_body_error (env : CycleEnv) (st : MonState) (e : PyErr)
    (h : cycle_body env st = Except.error e) :
    cycle env st = (st, { notified := false, logs := [ "Erreur"] }) := by
  unfold cycle
  rw [h]

theorem cycle_avail_old (env : CycleEnv) (st : MonState) (html : List Char)
    (hf : env.fetch = some html) (ha : (parse_availability html).1 = true)
    (hsig : signatureOf env.salt html = st.last_signature) :
    cycle env st = (st,
      { notified := false,
        logs := [ "Disponibilités déjà signalées. Pas de nouvel email."] }) := by
  simp [cycle, cycle_body, hf, ha, hsig]

theorem cycle_avail_new_sent (env : CycleEnv) (st : MonState) (html : List Char)
    (hf : env.fetch = some html) (ha : (parse_availability html).1 = true)
    (hne : signatureOf env.salt html ≠ st.last_signature)
    (hconf : env.configured = true) (hok : env.smtpOk = true) :
    cycle env st =
      ({ last_signature := signatureOf env.salt html,
         state_file :=
           (save_state env.writeOut (signatureOf env.salt html) st.state_file).1 },
       { notified := true, logs := [ "Email d’alerte envoyé."] }) := by
  simp [cycle, cycle_body, hf, ha, hne, send_email, hconf, hok, save_state_logs]

theorem cycle_avail_new_unconf (env : CycleEnv) (st : MonState) (html : List Char)
    (hf : env.fetch = some html) (ha : (parse_availability html).1 = true)
    (hne : signatureOf env.salt html ≠ st.last_signature)
    (hconf : env.configured = false) :
    cycle env st =
      ({ last_signature := signatureOf env.salt html,
         state_file :=
           (save_state env.writeOut (signatureOf env.salt html) st.state_file).1 },
       { notified := false,
         logs := [ "Config email incomplète. Aucune alerte envoyée."] }) := by
  simp [cycle, cycle_body, hf, ha, hne, send_email, hconf, save_state_logs]

theorem cycle_avail_new_fail (env : CycleEnv) (st : MonState) (html : List Char)
    (hf : env.fetch = some html) (ha : (parse_availability html).1 = true)
    (hne : signatureOf env.salt html ≠ st.last_signature)
    (hconf : env.configured = true) (hok : env.smtpOk = false) :
    cycle env st = (st, { notified := false, logs := [ "Erreur"] }) := by
  simp [cycle, cycle_body, hf, ha, hne, send_email, hconf, hok]

theorem runCycles_length (envs : List CycleEnv) : ∀ st : MonState,
    ((runCycles envs st).2).length = envs.length := by
  induction envs with
  | nil => intro st; rfl
  | cons e rest ih => intro st; simp [runCycles, ih]

theorem runCycles_pair (e1 e2 : CycleEnv) (st : MonState) :
    (runCycles [e1, e2] st).2 = [(cycle e1 st).2, (cycle e2 (cycle e1 st).1).2] :=
  rfl

theorem runCycles_cons (e : CycleEnv) (envs : List CycleEnv) (st : MonState) :
    runCycles (e :: envs) st =
      ((runCycles envs (cycle e st).1).1,
       (cycle e st).2 :: (runCycles envs (cycle e st).1).2) :=
  rfl

theorem notifCount_nil : notifCount [] = 0 :=
  rfl

theorem notifCount_cons (o : CycleOut) (l : List CycleOut) :
    notifCount (o :: l) = notifCount l + (if o.notified then 1 else 0) := by
  simp [notifCount, List.countP_cons]

/-- C1: for every document text, `parse_availability` returns
`(False, "Message négatif exact détecté")` (unavailable, negative phrase
matched) if and only if the normalized configured negative phrase is a
substring of the normalized document text; otherwise it returns
`(True, "Phrase négative absente")` (available, negative phrase absent). -/
theorem claim_C1 (doc : List Char) :
    (parse_availability doc = (false, "Message négatif exact détecté") ↔
      normalize_text NEGATIVE_PHRASE_FULL <:+: normalize_text doc) ∧
    (¬ normalize_text NEGATIVE_PHRASE_FULL <:+: normalize_text doc →
      parse_availability doc = (true, "Phrase négative absente")) := by
  by_cases h : normalize_text NEGATIVE_PHRASE_FULL <:+: normalize_text doc
  · exact ⟨by simp [parse_availability, h], fun hn => absurd h hn⟩
  · constructor
    · simp [parse_availability, h]
    · intro _
      simp [parse_availability, h]

/-- Witness for C1 at the concrete document `"x"`, in which the negative
phrase does not occur: the classifier reports availability. -/
theorem claim_C1_witness :
    parse_availability exDoc = (true, "Phrase négative absente") :=
  (claim_C1 exDoc).2 (by decide)

/-- C5: the poll loop is infallible.  Every cycle produces exactly one
outcome (a run over `n` environments yields `n` cycle outcomes, whatever
errors occur), and any failure the body raises is caught by the
`except Exception` handler, which logs and leaves the state unchanged, so
no cycle propagates an unhandled failure out of the loop. -/
theorem claim_C5 (envs : List CycleEnv) (st : MonState) (env : CycleEnv)
    (st2 : MonState) (e : PyErr) (herr : cycle_body env st2 = Except.error e) :
    ((runCycles envs st).2).length = envs.length ∧
    cycle env st2 = (st2, { notified := false, logs := [ "Erreur"] }) :=
  ⟨runCycles_length envs st, cycle_of_body_error env st2 e herr⟩

/-- Witness for C5: a concrete failing fetch is handled and the loop
completes the cycle with the state unchanged. -/
theorem claim_C5_witness :
    ((runCycles [exEnvErr] exSt0).2).length = 1 ∧
    cycle exEnvErr exSt0 = (exSt0, { notified := false, logs := [ "Erreur"] }) :=
  claim_C5 [exEnvErr] exSt0 exEnvErr exSt0 PyErr.fetchError rfl

/-- C6: a cycle whose document classifies as unavailable sends no
notification, leaves the persisted state file and the in-memory
`last_signature` unchanged (the whole state is returned untouched), and
only produces a log line before sleeping. -/
theorem claim_C6 (env : CycleEnv) (st : MonState) (html : List Char)
    (hf : env.fetch = some html) (hun : (parse_availability html).1 = false) :
    cycle env st =
      (st, { notified := false, logs := [ "Aucune disponibilité détectée."] }) := by
  simp [cycle, cycle_body, hf, hun]

/-- Witness for C6: a concrete document consisting of the negative phrase
classifies unavailable and the cycle changes nothing. -/
theorem claim_C6_witness :
    cycle exEnvNeg exSt0 =
      (exSt0, { notified := false, logs := [ "Aucune disponibilité détectée."] }) :=
  claim_C6 exEnvNeg exSt0 NEGATIVE_PHRASE_FULL rfl (by decide)

/-- C3: retry law.  When classification is available, the fingerprint is
new, the mail configuration is complete and the SMTP delivery raises, the
cycle leaves the whole state (persisted fingerprint and in-memory
`last_signature`) unchanged, and a next cycle with the same document and
salt re-attempts the notification (and succeeds when delivery works). -/
theorem claim_C3 (env1 env2 : CycleEnv) (st : MonState) (html : List Char)
    (hf1 : env1.fetch = some html)
    (ha : (parse_availability html).1 = true)
    (hne : signatureOf env1.salt html ≠ st.last_signature)
    (hconf : env1.configured = true) (hfail : env1.smtpOk = false)
    (hf2 : env2.fetch = some html) (hsalt : env2.salt = env1.salt)
    (hconf2 : env2.configured = true) (hok2 : env2.smtpOk = true) :
    cycle env1 st = (st, { notified := false, logs := [ "Erreur"] }) ∧
    (cycle env2 (cycle env1 st).1).2.notified = true := by
  have h1 := cycle_avail_new_fail env1 st html hf1 ha hne hconf hfail
  refine ⟨h1, ?_⟩
  rw [h1]
  rw [cycle_avail_new_sent env2 st html hf2 ha
    (by rw [hsalt]; exact hne) hconf2 hok2]

/-- Witness for C3: failed SMTP delivery leaves the state untouched and
the identical next cycle with working SMTP delivers the alert. -/
theorem claim_C3_witness :
    cycle exEnvFail exSt0 = (exSt0, { notified := false, logs := [ "Erreur"] }) ∧
    (cycle exEnvOk (cycle exEnvFail exSt0).1).2.notified = true :=
  claim_C3 exEnvFail exEnvOk exSt0 exDoc rfl (by decide) (by decide) rfl rfl rfl rfl
    rfl rfl

/-- C2 as stated is false; amended: across two consecutive cycles that
both fetch successfully, both classify available and have identical
fingerprints (same salt), at most one notification is delivered; and
exactly one is delivered when in addition the first cycle's fingerprint
differs from the current `last_signature`, the mail configuration is
complete and its SMTP delivery succeeds. -/
theorem claim_C2_amended (env1 env2 : CycleEnv) (st : MonState)
    (h1 h2 : List Char)
    (hf1 : env1.fetch = some h1) (hf2 : env2.fetch = some h2)
    (hsalt : env2.salt = env1.salt)
    (ha1 : (parse_availability h1).1 = true)
    (ha2 : (parse_availability h2).1 = true)
    (hsig : signatureOf env2.salt h2 = signatureOf env1.salt h1) :
    notifCount (runCycles [env1, env2] st).2 ≤ 1 ∧
    (signatureOf env1.salt h1 ≠ st.last_signature → env1.configured = true →
      env1.smtpOk = true → notifCount (runCycles [env1, env2] st).2 = 1) := by
  rw [runCycles_pair]
  by_cases hne : signatureOf env1.salt h1 ≠ st.last_signature
  · by_cases hconf : env1.configured = true
    · by_cases hok : env1.smtpOk = true
      · have hc1 := cycle_avail_new_sent env1 st h1 hf1 ha1 hne hconf hok
        have hc2 := cycle_avail_old env2 (cycle env1 st).1 h2 hf2 ha2
          (by rw [hc1, hsig])
        rw [hc1] at hc2 ⊢
        rw [hc2]
        exact ⟨by simp [notifCount_cons, notifCount_nil],
          fun _ _ _ => by simp [notifCount_cons, notifCount_nil]⟩
      · have hc1 := cycle_avail_new_fail env1 st h1 hf1 ha1 hne hconf
          (Bool.eq_false_iff.mpr hok)
        rw [hc1]
        constructor
        · simp only [notifCount_cons, notifCount_nil]
          cases hcn : (cycle env2 st).2.notified <;> simp
        · intro _ _ hok'
          exact absurd hok' hok
    · have hc1 := cycle_avail_new_unconf env1 st h1 hf1 ha1 hne
        (Bool.eq_false_iff.mpr hconf)
      have hc2 := cycle_avail_old env2 (cycle env1 st).1 h2 hf2 ha2
        (by rw [hc1, hsig])
      rw [hc1] at hc2 ⊢
      rw [hc2]
      exact ⟨by simp [notifCount_cons, notifCount_nil],
        fun _ hconf' _ => absurd hconf' hconf⟩
  · rw [Classical.not_not] at hne
    have hc1 := cycle_avail_old env1 st h1 hf1 ha1 hne
    have hc2 := cycle_avail_old env2 (cycle env1 st).1 h2 hf2 ha2
      (by rw [hc1, hsig, ← hne])
    rw [hc1] at hc2 ⊢
    rw [hc2]
    refine ⟨by simp [notifCount_cons, notifCount_nil], fun hne' _ _ => ?_⟩
    exact absurd hne hne' 

/-- Counterexample for C2 as stated: two consecutive cycles on the
identical available document whose fingerprint was already signalled
earlier deliver zero notifications, not exactly one. -/
theorem claim_C2_counterexample :
    (parse_availability exDoc).1 = true ∧
    signatureOf 0 exDoc = signatureOf 0 exDoc ∧
    ¬ notifCount (runCycles [exEnvOk, exEnvOk] exStSeen).2 = 1 := by
  refine ⟨by decide, rfl, by decide⟩

/-- Witness for the amended C2 under the success conditions: starting from
a fresh state, two identical available cycles deliver exactly one
notification. -/
theorem claim_C2_witness :
    notifCount (runCycles [exEnvOk, exEnvOk] exSt0).2 = 1 :=
  (claim_C2_amended exEnvOk exEnvOk exSt0 exDoc exDoc rfl rfl rfl (by decide)
    (by decide) rfl).2 (by decide) rfl rfl

/-- C9 as stated is false; amended: when the notifier configuration is
incomplete and a new available document is seen, `send_email` returns
normally after logging, without raising and without sending, and the
cycle persists the new fingerprint exactly as a successful notification
would (the post-state equals the fully-configured successful cycle's
post-state).  Consequently the same content does not trigger a
notification in a later cycle as long as `last_signature` still holds its
fingerprint; but as soon as `last_signature` differs (for instance after
an intervening notification for different content overwrote it, or after
a restart changed the hash salt), a later fully-configured cycle fetching
the same content does deliver a notification. -/
theorem claim_C9_amended (env : CycleEnv) (st : MonState) (html : List Char)
    (hf : env.fetch = some html) (ha : (parse_availability html).1 = true)
    (hne : signatureOf env.salt html ≠ st.last_signature)
    (hconf : env.configured = false) :
    cycle env st =
      ({ last_signature := signatureOf env.salt html,
         state_file :=
           (save_state env.writeOut (signatureOf env.salt html) st.state_file).1 },
       { notified := false,
         logs := [ "Config email incomplète. Aucune alerte envoyée."] }) ∧
    (cycle env st).1 = (cycle { env with configured := true, smtpOk := true } st).1 ∧
    (∀ (env2 : CycleEnv) (st2 : MonState), env2.fetch = some html →
      env2.salt = env.salt →
      st2.last_signature = signatureOf env.salt html →
      cycle env2 st2 = (st2,
        { notified := false,
          logs := [ "Disponibilités déjà signalées. Pas de nouvel email."] })) ∧
    (∀ (env3 : CycleEnv) (st3 : MonState), env3.fetch = some html →
      signatureOf env3.salt html ≠ st3.last_signature →
      env3.configured = true → env3.smtpOk = true →
      (cycle env3 st3).2.notified = true) := by
  have hu := cycle_avail_new_unconf env st html hf ha hne hconf
  refine ⟨hu, ?_, ?_, ?_⟩
  · have hs := cycle_avail_new_sent { env with configured := true, smtpOk := true }
      st html hf ha hne rfl rfl
    rw [hu, hs]
  · intro env2 st2 hf2 hsalt2 hlast2
    exact cycle_avail_old env2 st2 html hf2 ha (by rw [hsalt2, hlast2])
  · intro env3 st3 hf3 hne3 hconf3 hok3
    rw [cycle_avail_new_sent env3 st3 html hf3 ha hne3 hconf3 hok3]

/-- Counterexample for C9 as stated: after the unconfigured cycle records
the fingerprint of `exDoc` without emailing, an intervening successful
cycle on the different document `exDocY` overwrites `last_signature`, and
a later fully-configured cycle fetching `exDoc` again delivers a
notification for the very content the claim says can never trigger one. -/
theorem claim_C9_counterexample :
    (parse_availability exDoc).1 = true ∧
    (cycle exEnvUnconf exSt0).2.notified = false ∧
    (cycle exEnvOk (cycle exEnvOkY (cycle exEnvUnconf exSt0).1).1).2.notified
      = true := by
  refine ⟨by decide, by decide, by decide⟩

/-- Witness for the amended C9: with incomplete configuration the concrete
available cycle sends nothing yet advances the state exactly like a
successful one, the immediately following same-document cycle stays
silent, and a cycle on the same document from a state holding a different
fingerprint notifies. -/
theorem claim_C9_witness :
    (cycle exEnvUnconf exSt0).2.notified = false ∧
    (cycle exEnvUnconf exSt0).1 =
      (cycle { exEnvUnconf with configured := true, smtpOk := true } exSt0).1 ∧
    (cycle exEnvOk (cycle exEnvUnconf exSt0).1).2.notified = false ∧
    (cycle exEnvOk exSt0).2.notified = true := by
  have h := claim_C9_amended exEnvUnconf exSt0 exDoc rfl (by decide) (by decide) rfl
  refine ⟨by rw [h.1], h.2.1, ?_, ?_⟩
  · rw [h.2.2.1 exEnvOk (cycle exEnvUnconf exSt0).1 rfl rfl (by rw [h.1])]
  · exact h.2.2.2 exEnvOk exSt0 rfl (by decide) rfl rfl

/-- C4 (code bug): the fingerprint is a deterministic function of the
first 50000 characters only as long as the per-process hash salt is
fixed.  Within one process (one salt) two documents with identical 50000
character prefixes get equal fingerprints; but the source computes
`str(hash(...))` with Python's salted string hash, so the same document
fingerprinted under two different process salts (i.e. across a restart)
yields different fingerprints, contradicting stability across restarts. -/
theorem claim_C4_salt_dependence :
    (∀ (salt : Nat) (d1 d2 : List Char), d1.take 50000 = d2.take 50000 →
      signatureOf salt d1 = signatureOf salt d2) ∧
    signatureOf 0 exDoc ≠ signatureOf 1 exDoc := by
  constructor
  · intro salt d1 d2 h
    unfold signatureOf
    rw [h]
  · decide

/-- Witness for C4's within-process prefix determinism, instantiated at a
concrete salt and document. -/
theorem claim_C4_witness :
    signatureOf 5 (String.data "ab") = signatureOf 5 (String.data "ab") :=
  claim_C4_salt_dependence.1 5 (String.data "ab") (String.data "ab") rfl

/-- C8 amended: `save_state` overwrites the persisted state with the
given fingerprint when the write completes, and on a write failure it
returns normally (the loop continues); but the failure is silently
swallowed, never logged (the log line list is always empty), and because
the write is a plain truncating write rather than an atomic
write-then-rename, an interrupted write leaves a partial prefix of the
new value in the file. -/
theorem claim_C8_amended (out : WriteOutcome) (s : String) (file : Option String)
    (k : Nat) :
    (save_state WriteOutcome.ok s file).1 = some s ∧
    (save_state out s file).2 = [] ∧
    (save_state WriteOutcome.openFail s file).1 = file ∧
    (save_state (WriteOutcome.interrupted k) s file).1 =
      some (String.mk (s.data.take k)) := by
  refine ⟨rfl, ?_, rfl, rfl⟩
  cases out <;> rfl

/-- Counterexample for C8 as stated: a write of `"42"` interrupted after
one character leaves the corrupted partial value `"4"` (neither the old
nor the new value) in the state file, and nothing is logged about the
failure. -/
theorem claim_C8_counterexample :
    save_state (WriteOutcome.interrupted 1) "42" (some "old") = (some "4", []) ∧
    (some "4" : Option String) ≠ some "42" ∧
    (some "4" : Option String) ≠ some "old" := by
  refine ⟨by decide, by decide, by decide⟩

/-- C10: round-trip of the state store.  If `s` has no leading or
trailing whitespace and the write succeeds, a successful read returns
exactly `s`; in general a successful read returns the stored value
stripped of surrounding whitespace, and the read degrades to the empty
string when the file is absent or unreadable. -/
theorem claim_C10 (s : String) (file0 : Option String)
    (hh : HeadNotWs s.data) (hl : LastNotWs s.data) :
    load_state (save_state WriteOutcome.ok s file0).1 true = s ∧
    (∀ c : String, load_state (some c) true = pyStripStr c) ∧
    (∀ b : Bool, load_state none b = "") ∧
    (∀ c : String, load_state (some c) false = "") := by
  refine ⟨?_, fun c => rfl, fun b => rfl, fun c => rfl⟩
  show pyStripStr s = s
  unfold pyStripStr
  rw [stripWs_eq_self s.data hh hl]

/-- Witness for C10 at the concrete stored value `"abc"`. -/
theorem claim_C10_witness :
    load_state (save_state WriteOutcome.ok "abc" none).1 true = "abc" :=
  (claim_C10 "abc" none
    (fun c hc => by
      rw [show (String.data "abc").head? = some 'a' from rfl,
        Option.some.injEq] at hc
      rw [← hc]
      decide)
    (fun c hc => by
      rw [show (String.data "abc").getLast? = some 'c' from rfl,
        Option.some.injEq] at hc
      rw [← hc]
      decide)).1

/-- Witness for C7 at the concrete negative phrase text. -/
theorem claim_C7_witness :
    normalize_text (normalize_text NEGATIVE_PHRASE_FULL) =
      normalize_text NEGATIVE_PHRASE_FULL :=
  claim_C7 NEGATIVE_PHRASE_FULL

/-- Witness for the amended C8 at concrete write outcomes. -/
theorem claim_C8_witness :
    (save_state WriteOutcome.ok "123" none).1 = some "123" ∧
    (save_state WriteOutcome.openFail "123" none).2 = [] ∧
    (save_state WriteOutcome.openFail "123" none).1 = none ∧
    (save_state (WriteOutcome.interrupted 2) "123" none).1 =
      some (String.mk (List.take 2 (String.data "123"))) :=
  claim_C8_amended WriteOutcome.openFail "123" none 2
